import Mathlib

/-!
Shallow embedding of the TaskWhisper backend (an Express server, source file
`src/unnamed/part_000`).  The embedding covers the reminder lifecycle engine
exposed at `POST /api/reminders/send-due` (due-scan, per-reminder dispatch,
follow-up scan), the reschedule endpoint `POST /api/reminders/:id/reschedule`,
the phone normalization helper `formatPhone`, and the mock branch of
`POST /api/transcribe` together with the `GET /api/health` availability flags.

Modelling conventions:
* Database rows are `Reminder` records with the snake_case column names of the
  store.  The store is a `List Reminder`; the update-by-id calls
  become `updateById`, and row lookup becomes `getById` (`List.find?`).
* Timestamps are integers (milliseconds since the epoch); ISO-8601 string
  comparison in the store queries is order-isomorphic to integer comparison.
* Nullable string columns are `Option String`; JavaScript truthiness of a
  string value (`null`/`undefined`/`""` are falsy) is `truthyStr`.
* External effects (the two store select queries, the email sends and the SMS
  send) are an `Oracle` of outcomes: `Except String Unit` mirrors a JavaScript
  call that either resolves or throws an error with a message.  The per-row
  `update` calls in the loops do not throw in the source (their error result
  is never inspected), so they are modelled as always succeeding.
* `attemptDue` returns the list of channel dispatches actually performed, so
  that "no message was sent" is expressible; the endpoint itself ignores it.
* The HTML/SMS payload rendering is pure string formatting with no effect on
  control flow or state; it is not modelled.
-/

namespace TaskWhisper

/-- A task object embedded in a reminder record. -/
structure Task where
  description : String
  suggestedDate : String
  priority : String
  category : String
deriving Repr, DecidableEq

/-- A persisted reminder row; field names follow the database columns used in
`src/unnamed/part_000`. -/
structure Reminder where
  id : Nat
  email : Option String
  phone_number : Option String
  transcript : Option String
  tasks : Option (List Task)
  email_draft : Option String
  scheduled_for : Int
  notification_methods : Option (List String)
  sent : Bool
  completed : Bool
  last_followup_sent : Option Int
  followup_count : Option Nat
deriving Repr, DecidableEq

/-- Which external services are configured (non-null `supabase`, `resend`,
`twilioClient` in the source). -/
structure Config where
  supabaseConfigured : Bool
  resendConfigured : Bool
  twilioConfigured : Bool
deriving Repr, DecidableEq

/-- One entry of the `results` array pushed by the send-due endpoint. -/
structure RunResult where
  id : Nat
  status : String
  error : Option String
deriving Repr, DecidableEq

/-- The HTTP response of the send-due endpoint: `{success, processed, results}`
on the happy path, or a 500 `{success: false, error}` from the outer catch or
the configuration guard. -/
inductive Response where
  | ok (processed : Nat) (results : List RunResult)
  | err (msg : String)
deriving Repr, DecidableEq

/-- A message actually handed to a delivery channel. -/
inductive Dispatch where
  | email (recipient : String)
  | sms (recipient : String)
deriving Repr, DecidableEq

/-- Outcomes of the external calls made during one send-due invocation:
`none` query errors mean the select succeeded; each send either resolves
(`Except.ok`) or throws (`Except.error msg`). -/
structure Oracle where
  dueQueryError : Option String
  followupQueryError : Option String
  emailSend : Reminder → Except String Unit
  smsSend : Reminder → String → Except String Unit
  followupEmailSend : Reminder → Except String Unit

/-- JavaScript truthiness of a nullable string value. -/
def truthyStr : Option String → Bool
  | none => false
  | some s => s != ""

/-- The notification methods column with its default: only a null column
triggers the default single-element email list; a present empty array stays
empty. -/
def methodsOf (r : Reminder) : List String :=
  r.notification_methods.getD ["email"]

/-- The `formatPhone` helper defined inside the SMS branch of the due loop:
empty (falsy) input short-circuits to `""`; otherwise strip non-digits,
prepend `1` unless the digits already start with `1`, and prefix `+`. -/
def formatPhone (phone : String) : String :=
  if phone = "" then ""
  else
    let digits : List Char := phone.toList.filter Char.isDigit
    let withCountryCode := if digits.head? == some '1' then digits else '1' :: digits
    "+" ++ String.mk withCountryCode

/-- Modelled from the specification wording of phone normalization ("strip all
non-digit characters; if the remaining digits do not already begin with the
country-code digit 1, prepend it; prefix with +"), used as the comparison
point for the `formatPhone` refinement claim. -/
def specNormalizePhone (p : String) : String :=
  let digits : List Char := p.toList.filter Char.isDigit
  let withCountryCode := if digits.head? == some '1' then digits else '1' :: digits
  "+" ++ String.mk withCountryCode

/-- The body of the due-loop `try` block for one reminder: conditionally send
email, then conditionally send SMS; the first throw aborts the attempt.
Returns the dispatches performed when no send threw. -/
def attemptDue (cfg : Config) (o : Oracle) (r : Reminder) : Except String (List Dispatch) :=
  let emailStep : Except String (List Dispatch) :=
    if (methodsOf r).contains "email" && truthyStr r.email then
      match o.emailSend r with
      | .ok _ => .ok [Dispatch.email (r.email.getD "")]
      | .error e => .error e
    else .ok []
  match emailStep with
  | .error e => .error e
  | .ok ev1 =>
    if (methodsOf r).contains "sms" && truthyStr r.phone_number && cfg.twilioConfigured then
      match o.smsSend r (formatPhone (r.phone_number.getD "")) with
      | .ok _ => .ok (ev1 ++ [Dispatch.sms (formatPhone (r.phone_number.getD ""))])
      | .error e => .error e
    else .ok ev1

/-- The `update({ sent: true })` payload of the due loop. -/
def markSent (r : Reminder) : Reminder := { r with sent := true }

/-- The result entry the due loop pushes for one reminder. -/
def dueOutcome (cfg : Config) (o : Oracle) (r : Reminder) : RunResult :=
  match attemptDue cfg o r with
  | .ok _ => { id := r.id, status := "sent", error := none }
  | .error e => { id := r.id, status := "failed", error := some e }

/-- The update-by-id store call applied to a list store. -/
def updateById (store : List Reminder) (i : Nat) (f : Reminder → Reminder) : List Reminder :=
  store.map (fun x => if x.id == i then f x else x)

/-- Row lookup by id (first row whose `id` column matches). -/
def getById : List Reminder → Nat → Option Reminder
  | [], _ => none
  | x :: t, i => if x.id == i then some x else getById t i

/-- The due-scan `for` loop: iterate over the fetched snapshot, on a
non-throwing attempt mark the row sent and push a `sent` entry, on a throw
push a `failed` entry and leave the store untouched. -/
def dueLoop (cfg : Config) (o : Oracle) : List Reminder → List Reminder → List Reminder × List RunResult
  | store, [] => (store, [])
  | store, r :: rest =>
    match attemptDue cfg o r with
    | .ok _ =>
      let next := dueLoop cfg o (updateById store r.id markSent) rest
      (next.1, { id := r.id, status := "sent", error := none } :: next.2)
    | .error e =>
      let next := dueLoop cfg o store rest
      (next.1, { id := r.id, status := "failed", error := some e } :: next.2)

/-- The due-scan query predicate: `sent = false AND scheduled_for <= now`. -/
def isDue (now : Int) (r : Reminder) : Bool :=
  !r.sent && decide (r.scheduled_for ≤ now)

/-- The rows returned by the due-scan select. -/
def dueSelection (now : Int) (store : List Reminder) : List Reminder :=
  store.filter (isDue now)

/-- `24 * 60 * 60 * 1000` milliseconds. -/
def followUpDelay : Int := 24 * 60 * 60 * 1000

/-- The follow-up query predicate: `sent = true AND completed = false AND
(last_followup_sent IS NULL OR last_followup_sent < cutoff) AND
scheduled_for <= cutoff` with `cutoff = now - followUpDelay`. -/
def isFollowupEligible (now : Int) (r : Reminder) : Bool :=
  r.sent && !r.completed &&
    (match r.last_followup_sent with
     | none => true
     | some t => decide (t < now - followUpDelay)) &&
    decide (r.scheduled_for ≤ now - followUpDelay)

/-- The rows returned by the follow-up select. -/
def followupSelection (now : Int) (store : List Reminder) : List Reminder :=
  store.filter (isFollowupEligible now)

/-- The result entry the follow-up loop pushes for one reminder. -/
def fuOutcome (o : Oracle) (r : Reminder) : RunResult :=
  match o.followupEmailSend r with
  | .ok _ => { id := r.id, status := "followup_sent", error := none }
  | .error e => { id := r.id, status := "followup_failed", error := some e }

/-- The follow-up `update` payload, computed from the fetched snapshot row `r`:
`last_followup_sent = now`, `followup_count = (r.followup_count || 0) + 1`. -/
def fuUpdate (now : Int) (r : Reminder) (x : Reminder) : Reminder :=
  { x with last_followup_sent := some now,
           followup_count := some (r.followup_count.getD 0 + 1) }

/-- The follow-up `for` loop: send the follow-up email; on success update the
tracking columns and push `followup_sent`, on a throw push `followup_failed`
and leave the store untouched. -/
def followupLoop (o : Oracle) (now : Int) : List Reminder → List Reminder → List Reminder × List RunResult
  | store, [] => (store, [])
  | store, r :: rest =>
    match o.followupEmailSend r with
    | .ok _ =>
      let next := followupLoop o now (updateById store r.id (fuUpdate now r)) rest
      (next.1, { id := r.id, status := "followup_sent", error := none } :: next.2)
    | .error e =>
      let next := followupLoop o now store rest
      (next.1, { id := r.id, status := "followup_failed", error := some e } :: next.2)

/-- `POST /api/reminders/send-due`: configuration guard, due-scan select
(throwing into the outer catch on error), due loop, follow-up select (its
error is only logged and skips the follow-up phase), follow-up loop, and the
final `{processed: results.length, results}` response. -/
def processDueReminders (cfg : Config) (o : Oracle) (now : Int) (store : List Reminder) :
    Response × List Reminder :=
  if cfg.supabaseConfigured && cfg.resendConfigured then
    match o.dueQueryError with
    | some e => (Response.err e, store)
    | none =>
      let d := dueLoop cfg o store (dueSelection now store)
      match o.followupQueryError with
      | some _ => (Response.ok d.2.length d.2, d.1)
      | none =>
        let f := followupLoop o now d.1 (followupSelection now d.1)
        (Response.ok (d.2 ++ f.2).length (d.2 ++ f.2), f.1)
  else (Response.err "Services not configured", store)

/-- `POST /api/reminders/:id/reschedule` update payload applied to a row. -/
def rescheduleReminder (newScheduledFor : Int) (r : Reminder) : Reminder :=
  { r with scheduled_for := newScheduledFor, sent := false,
           last_followup_sent := none, followup_count := some 0 }

/-- The boolean filter used to pick out, from the result list of a run, the
due-scan entry of a given reminder id. -/
def dueStatusFilter (i : Nat) (e : RunResult) : Bool :=
  e.id == i && (e.status == "sent" || e.status == "failed")

/-- The fixed mock transcript returned when no usable OpenAI key is set. -/
def mockTranscript : String :=
  "This is a test transcription. Configure your OpenAI API key to enable real Whisper transcription."

/-- The placeholder value the transcribe endpoint treats as an unusable key. -/
def placeholderKey : String := "your-openai-api-key-here"

/-- The mock-branch condition of `POST /api/transcribe`:
`!process.env.OPENAI_API_KEY || process.env.OPENAI_API_KEY === placeholder`. -/
def usesMockTranscription (key : Option String) : Bool :=
  !truthyStr key || key == some placeholderKey

/-- `whisperAvailable: !!process.env.OPENAI_API_KEY` from `GET /api/health`. -/
def whisperAvailable (key : Option String) : Bool := truthyStr key

/-- The JSON body of the transcribe response (error path modelled as
`success = false`). -/
structure TranscribeResponse where
  success : Bool
  transcript : String
  mock : Bool
deriving Repr, DecidableEq

/-- `POST /api/transcribe` with a file present: the mock branch deletes the
uploaded temp file and answers the fixed transcript with `mock = true`;
otherwise the Whisper call decides the outcome (the temp file is removed on
every path).  Second component: whether the temp file was deleted. -/
def transcribe (key : Option String) (whisper : Except String String) :
    TranscribeResponse × Bool :=
  if usesMockTranscription key then
    ({ success := true, transcript := mockTranscript, mock := true }, true)
  else
    match whisper with
    | .ok t => ({ success := true, transcript := t, mock := false }, true)
    | .error _ => ({ success := false, transcript := "", mock := false }, true)

/-- One hour in milliseconds, for concrete test reminders. -/
def msPerHour : Int := 60 * 60 * 1000

/-- All three external services configured. -/
def cfgFull : Config :=
  { supabaseConfigured := true, resendConfigured := true, twilioConfigured := true }

/-- Email channel (Resend) unconfigured, SMS configured. -/
def cfgNoEmail : Config :=
  { supabaseConfigured := true, resendConfigured := false, twilioConfigured := true }

/-- SMS channel (Twilio) unconfigured. -/
def cfgNoSms : Config :=
  { supabaseConfigured := true, resendConfigured := true, twilioConfigured := false }

/-- Every external call succeeds. -/
def oracleAllOk : Oracle :=
  { dueQueryError := none, followupQueryError := none,
    emailSend := fun _ => .ok (), smsSend := fun _ _ => .ok (),
    followupEmailSend := fun _ => .ok () }

/-- Every due-scan email send throws (misconfigured email credential). -/
def oracleEmailDown : Oracle :=
  { oracleAllOk with emailSend := fun _ => .error "DeliveryFailed" }

/-- The due-scan select itself fails. -/
def oracleDueQueryDown : Oracle :=
  { oracleAllOk with dueQueryError := some "db unreachable" }

/-- The follow-up select fails. -/
def oracleFuQueryDown : Oracle :=
  { oracleAllOk with followupQueryError := some "db unreachable" }

/-- A due reminder that selects only the SMS channel. -/
def smsOnlyReminder : Reminder :=
  { id := 1, email := none, phone_number := some "555-123-4567",
    transcript := some "buy milk", tasks := some [], email_draft := none,
    scheduled_for := -1, notification_methods := some ["sms"],
    sent := false, completed := false, last_followup_sent := none,
    followup_count := some 0 }

/-- A due reminder that selects only the email channel. -/
def emailOnlyReminder : Reminder :=
  { id := 2, email := some "user@example.com", phone_number := none,
    transcript := some "call dentist", tasks := some [], email_draft := none,
    scheduled_for := -1, notification_methods := some ["email"],
    sent := false, completed := false, last_followup_sent := none,
    followup_count := some 0 }

/-- An already-sent, incomplete reminder 25 hours past due: follow-up
eligible, not due-scan eligible. -/
def followupOnlyReminder : Reminder :=
  { id := 3, email := some "user@example.com", phone_number := none,
    transcript := some "file taxes", tasks := some [], email_draft := none,
    scheduled_for := -25 * msPerHour, notification_methods := none,
    sent := true, completed := false, last_followup_sent := none,
    followup_count := some 0 }

/-- A sent, incomplete reminder with chosen schedule and follow-up times, for
the follow-up eligibility boundary cases. -/
def mkFollowupCase (i : Nat) (sf : Int) (lfs : Option Int) : Reminder :=
  { id := i, email := some "user@example.com", phone_number := none,
    transcript := none, tasks := none, email_draft := none,
    scheduled_for := sf, notification_methods := none,
    sent := true, completed := false, last_followup_sent := lfs,
    followup_count := some 0 }







theorem getById_mem_id (s : List Reminder) (i : Nat) (x : Reminder)
    (h : getById s i = some x) : x.id = i := by
  induction s with
  | nil => simp [getById] at h
  | cons a t ih =>
    by_cases ha : a.id = i
    · simp [getById, ha] at h
      rw [← h, ha]
    · simp [getById, ha] at h
      exact ih h

theorem getById_updateById (s : List Reminder) (i : Nat) (f : Reminder → Reminder)
    (hf : ∀ x, (f x).id = x.id) (j : Nat) :
    getById (updateById s i f) j
      = (getById s j).map (fun x => if x.id == i then f x else x) := by
  induction s with
  | nil => rfl
  | cons a t ih =>
    by_cases hai : a.id = i
    · by_cases haj : a.id = j
      · have hij : i = j := by rw [← hai, haj]
        simp [getById, updateById, hai, haj, hij, hf]
      · have hij : ¬ i = j := fun h => haj (hai.trans h)
        simp [getById, updateById, hai, hij, hf, haj]
        simpa [updateById] using ih
    · by_cases haj : a.id = j
      · have hji : ¬ j = i := fun h => hai (haj.trans h)
        simp [getById, updateById, hai, haj, hji]
      · simp [getById, updateById, hai, haj]
        simpa [updateById] using ih

theorem getById_updateById_self (s : List Reminder) (i : Nat) (f : Reminder → Reminder)
    (hf : ∀ x, (f x).id = x.id) :
    getById (updateById s i f) i = (getById s i).map f := by
  rw [getById_updateById s i f hf i]
  cases h : getById s i with
  | none => rfl
  | some x =>
    have hx : x.id = i := getById_mem_id s i x h
    simp [hx]

theorem getById_updateById_ne (s : List Reminder) (i : Nat) (f : Reminder → Reminder)
    (hf : ∀ x, (f x).id = x.id) (j : Nat) (hij : j ≠ i) :
    getById (updateById s i f) j = getById s j := by
  rw [getById_updateById s i f hf j]
  cases h : getById s j with
  | none => rfl
  | some x =>
    have hx : x.id = j := getById_mem_id s j x h
    have hxi : ¬ x.id = i := by
      rw [hx]
      exact hij
    simp [hxi]

theorem updateById_map_id (s : List Reminder) (i : Nat) (f : Reminder → Reminder)
    (hf : ∀ x, (f x).id = x.id) :
    (updateById s i f).map Reminder.id = s.map Reminder.id := by
  induction s with
  | nil => rfl
  | cons a t ih =>
    by_cases hai : a.id = i <;> simp [updateById, hai, hf] at * <;> exact ih

theorem getById_updateById_proj {α : Type} (π : Reminder → α) (s : List Reminder)
    (i : Nat) (f : Reminder → Reminder) (hf : ∀ x, (f x).id = x.id)
    (hπ : ∀ x, π (f x) = π x) (j : Nat) :
    (getById (updateById s i f) j).map π = (getById s j).map π := by
  rw [getById_updateById s i f hf j]
  cases h : getById s j with
  | none => rfl
  | some x =>
    by_cases hx : x.id = i <;> simp [hx, hπ]

theorem mem_nodup_getById (s : List Reminder) (r : Reminder)
    (hr : r ∈ s) (hnd : (s.map Reminder.id).Nodup) :
    getById s r.id = some r := by
  induction s with
  | nil => cases hr
  | cons a t ih =>
    rw [List.map_cons] at hnd
    have hnd1 := (List.nodup_cons.mp hnd).1
    have hnd2 := (List.nodup_cons.mp hnd).2
    rcases List.mem_cons.mp hr with h | h
    · subst h
      simp [getById]
    · have hne : ¬ a.id = r.id := by
        intro he
        apply hnd1
        rw [he]
        exact List.mem_map_of_mem Reminder.id h
      simp [getById, hne]
      exact ih h hnd2

theorem markSent_id (x : Reminder) : (markSent x).id = x.id := rfl

theorem fuUpdate_id (now : Int) (r x : Reminder) : (fuUpdate now r x).id = x.id := rfl

theorem dueLoop_results (cfg : Config) (o : Oracle) (l store : List Reminder) :
    (dueLoop cfg o store l).2 = l.map (dueOutcome cfg o) := by
  induction l generalizing store with
  | nil => rfl
  | cons r rest ih =>
    cases h : attemptDue cfg o r with
    | ok v => simp [dueLoop, dueOutcome, h, ih]
    | error e => simp [dueLoop, dueOutcome, h, ih]

theorem dueLoop_map_id (cfg : Config) (o : Oracle) (l store : List Reminder) :
    ((dueLoop cfg o store l).1).map Reminder.id = store.map Reminder.id := by
  induction l generalizing store with
  | nil => rfl
  | cons r rest ih =>
    cases h : attemptDue cfg o r with
    | ok v =>
      simp only [dueLoop, h]
      rw [ih]
      exact updateById_map_id store r.id markSent (fun x => rfl)
    | error e =>
      simp only [dueLoop, h]
      exact ih store

theorem getById_dueLoop_ne (cfg : Config) (o : Oracle) :
    ∀ (l store : List Reminder) (j : Nat), (∀ x ∈ l, x.id ≠ j) →
      getById (dueLoop cfg o store l).1 j = getById store j := by
  intro l
  induction l with
  | nil => intro store j _; rfl
  | cons r rest ih =>
    intro store j hj
    have hr : r.id ≠ j := hj r (List.mem_cons_self r rest)
    have hrest : ∀ x ∈ rest, x.id ≠ j := fun x hx => hj x (List.mem_cons_of_mem r hx)
    cases h : attemptDue cfg o r with
    | ok v =>
      simp only [dueLoop, h]
      rw [ih _ j hrest]
      exact getById_updateById_ne store r.id markSent (fun x => rfl) j (fun hh => hr hh.symm)
    | error e =>
      simp only [dueLoop, h]
      exact ih store j hrest

theorem getById_dueLoop_mem (cfg : Config) (o : Oracle) :
    ∀ (l store : List Reminder) (r : Reminder), r ∈ l → (l.map Reminder.id).Nodup →
      getById (dueLoop cfg o store l).1 r.id
        = (match attemptDue cfg o r with
           | .ok _ => (getById store r.id).map markSent
           | .error _ => getById store r.id) := by
  intro l
  induction l with
  | nil => intro store r hr _; cases hr
  | cons a rest ih =>
    intro store r hr hnd
    rw [List.map_cons] at hnd
    have hnd1 := (List.nodup_cons.mp hnd).1
    have hnd2 := (List.nodup_cons.mp hnd).2
    rcases List.mem_cons.mp hr with h | h
    · subst h
      have hrest : ∀ x ∈ rest, x.id ≠ r.id := by
        intro x hx he
        apply hnd1
        rw [← he]
        exact List.mem_map_of_mem Reminder.id hx
      cases hatt : attemptDue cfg o r with
      | ok v =>
        simp only [dueLoop, hatt]
        rw [getById_dueLoop_ne cfg o rest _ r.id hrest]
        exact getById_updateById_self store r.id markSent (fun x => rfl)
      | error e =>
        simp only [dueLoop, hatt]
        exact getById_dueLoop_ne cfg o rest store r.id hrest
    · have hne : a.id ≠ r.id := by
        intro he
        apply hnd1
        rw [he]
        exact List.mem_map_of_mem Reminder.id h
      cases hatt : attemptDue cfg o a with
      | ok v =>
        simp only [dueLoop, hatt]
        rw [ih _ r h hnd2,
          getById_updateById_ne store a.id markSent (fun x => rfl) r.id (fun hh => hne hh.symm)]
      | error e =>
        simp only [dueLoop, hatt]
        exact ih store r h hnd2

theorem dueLoop_proj {α : Type} (π : Reminder → α) (hπ : ∀ x, π (markSent x) = π x)
    (cfg : Config) (o : Oracle) (l store : List Reminder) (j : Nat) :
    (getById (dueLoop cfg o store l).1 j).map π = (getById store j).map π := by
  induction l generalizing store with
  | nil => rfl
  | cons r rest ih =>
    cases h : attemptDue cfg o r with
    | ok v =>
      simp only [dueLoop, h]
      rw [ih]
      exact getById_updateById_proj π store r.id markSent (fun x => rfl) hπ j
    | error e =>
      simp only [dueLoop, h]
      exact ih store

theorem followupLoop_results (o : Oracle) (now : Int) (l store : List Reminder) :
    (followupLoop o now store l).2 = l.map (fuOutcome o) := by
  induction l generalizing store with
  | nil => rfl
  | cons r rest ih =>
    cases h : o.followupEmailSend r with
    | ok v => simp [followupLoop, fuOutcome, h, ih]
    | error e => simp [followupLoop, fuOutcome, h, ih]

theorem followupLoop_map_id (o : Oracle) (now : Int) (l store : List Reminder) :
    ((followupLoop o now store l).1).map Reminder.id = store.map Reminder.id := by
  induction l generalizing store with
  | nil => rfl
  | cons r rest ih =>
    cases h : o.followupEmailSend r with
    | ok v =>
      simp only [followupLoop, h]
      rw [ih]
      exact updateById_map_id store r.id (fuUpdate now r) (fun x => rfl)
    | error e =>
      simp only [followupLoop, h]
      exact ih store

theorem getById_followupLoop_ne (o : Oracle) (now : Int) :
    ∀ (l store : List Reminder) (j : Nat), (∀ x ∈ l, x.id ≠ j) →
      getById (followupLoop o now store l).1 j = getById store j := by
  intro l
  induction l with
  | nil => intro store j _; rfl
  | cons r rest ih =>
    intro store j hj
    have hr : r.id ≠ j := hj r (List.mem_cons_self r rest)
    have hrest : ∀ x ∈ rest, x.id ≠ j := fun x hx => hj x (List.mem_cons_of_mem r hx)
    cases h : o.followupEmailSend r with
    | ok v =>
      simp only [followupLoop, h]
      rw [ih _ j hrest]
      exact getById_updateById_ne store r.id (fuUpdate now r) (fun x => rfl) j
        (fun hh => hr hh.symm)
    | error e =>
      simp only [followupLoop, h]
      exact ih store j hrest

theorem getById_followupLoop_mem (o : Oracle) (now : Int) :
    ∀ (l store : List Reminder) (r : Reminder), r ∈ l → (l.map Reminder.id).Nodup →
      getById (followupLoop o now store l).1 r.id
        = (match o.followupEmailSend r with
           | .ok _ => (getById store r.id).map (fuUpdate now r)
           | .error _ => getById store r.id) := by
  intro l
  induction l with
  | nil => intro store r hr _; cases hr
  | cons a rest ih =>
    intro store r hr hnd
    rw [List.map_cons] at hnd
    have hnd1 := (List.nodup_cons.mp hnd).1
    have hnd2 := (List.nodup_cons.mp hnd).2
    rcases List.mem_cons.mp hr with h | h
    · subst h
      have hrest : ∀ x ∈ rest, x.id ≠ r.id := by
        intro x hx he
        apply hnd1
        rw [← he]
        exact List.mem_map_of_mem Reminder.id hx
      cases hatt : o.followupEmailSend r with
      | ok v =>
        simp only [followupLoop, hatt]
        rw [getById_followupLoop_ne o now rest _ r.id hrest]
        exact getById_updateById_self store r.id (fuUpdate now r) (fun x => rfl)
      | error e =>
        simp only [followupLoop, hatt]
        exact getById_followupLoop_ne o now rest store r.id hrest
    · have hne : a.id ≠ r.id := by
        intro he
        apply hnd1
        rw [he]
        exact List.mem_map_of_mem Reminder.id h
      cases hatt : o.followupEmailSend a with
      | ok v =>
        simp only [followupLoop, hatt]
        rw [ih _ r h hnd2,
          getById_updateById_ne store a.id (fuUpdate now a) (fun x => rfl) r.id
            (fun hh => hne hh.symm)]
      | error e =>
        simp only [followupLoop, hatt]
        exact ih store r h hnd2

theorem followupLoop_proj {α : Type} (π : Reminder → α) (o : Oracle) (now : Int)
    (hπ : ∀ r x, π (fuUpdate now r x) = π x) (l store : List Reminder) (j : Nat) :
    (getById (followupLoop o now store l).1 j).map π = (getById store j).map π := by
  induction l generalizing store with
  | nil => rfl
  | cons r rest ih =>
    cases h : o.followupEmailSend r with
    | ok v =>
      simp only [followupLoop, h]
      rw [ih]
      exact getById_updateById_proj π store r.id (fuUpdate now r) (fun x => rfl) (hπ r) j
    | error e =>
      simp only [followupLoop, h]
      exact ih store

theorem dueOutcome_id (cfg : Config) (o : Oracle) (r : Reminder) :
    (dueOutcome cfg o r).id = r.id := by
  cases h : attemptDue cfg o r with
  | ok v => simp [dueOutcome, h]
  | error e => simp [dueOutcome, h]

theorem dueOutcome_status (cfg : Config) (o : Oracle) (r : Reminder) :
    (dueOutcome cfg o r).status = "sent" ∨ (dueOutcome cfg o r).status = "failed" := by
  cases h : attemptDue cfg o r with
  | ok v => left; simp [dueOutcome, h]
  | error e => right; simp [dueOutcome, h]

theorem fuOutcome_status (o : Oracle) (r : Reminder) :
    (fuOutcome o r).status = "followup_sent" ∨ (fuOutcome o r).status = "followup_failed" := by
  cases h : o.followupEmailSend r with
  | ok v => left; simp [fuOutcome, h]
  | error e => right; simp [fuOutcome, h]

theorem dueStatusFilter_fuOutcome (o : Oracle) (i : Nat) (r : Reminder) :
    dueStatusFilter i (fuOutcome o r) = false := by
  cases h : o.followupEmailSend r with
  | ok v => simp [dueStatusFilter, fuOutcome, h]
  | error e => simp [dueStatusFilter, fuOutcome, h]

theorem filter_due_map_of_ne (cfg : Config) (o : Oracle) (i : Nat)
    (l : List Reminder) (hl : ∀ x ∈ l, x.id ≠ i) :
    (l.map (dueOutcome cfg o)).filter (dueStatusFilter i) = [] := by
  rw [List.filter_eq_nil_iff]
  intro e he
  rcases List.mem_map.mp he with ⟨x, hx, rfl⟩
  simp [dueStatusFilter, dueOutcome_id, hl x hx]

theorem filter_due_map_singleton (cfg : Config) (o : Oracle) :
    ∀ (l : List Reminder) (r : Reminder), r ∈ l → (l.map Reminder.id).Nodup →
      (l.map (dueOutcome cfg o)).filter (dueStatusFilter r.id) = [dueOutcome cfg o r] := by
  intro l
  induction l with
  | nil => intro r hr _; cases hr
  | cons a rest ih =>
    intro r hr hnd
    rw [List.map_cons] at hnd
    have hnd1 := (List.nodup_cons.mp hnd).1
    have hnd2 := (List.nodup_cons.mp hnd).2
    rcases List.mem_cons.mp hr with h | h
    · subst h
      have hfr : dueStatusFilter r.id (dueOutcome cfg o r) = true := by
        rcases dueOutcome_status cfg o r with hs | hs <;>
          simp [dueStatusFilter, dueOutcome_id, hs]
      have hrest : ∀ x ∈ rest, x.id ≠ r.id := by
        intro x hx he
        apply hnd1
        rw [← he]
        exact List.mem_map_of_mem Reminder.id hx
      rw [List.map_cons, List.filter_cons_of_pos hfr,
        filter_due_map_of_ne cfg o r.id rest hrest]
    · have hne : a.id ≠ r.id := by
        intro he
        apply hnd1
        rw [he]
        exact List.mem_map_of_mem Reminder.id h
      have hfa : ¬ dueStatusFilter r.id (dueOutcome cfg o a) = true := by
        simp [dueStatusFilter, dueOutcome_id, hne]
      rw [List.map_cons, List.filter_cons_of_neg hfa]
      exact ih r h hnd2

theorem filter_fu_map (o : Oracle) (i : Nat) (l : List Reminder) :
    (l.map (fuOutcome o)).filter (dueStatusFilter i) = [] := by
  rw [List.filter_eq_nil_iff]
  intro e he
  rcases List.mem_map.mp he with ⟨x, hx, rfl⟩
  simp [dueStatusFilter_fuOutcome]

theorem selection_map_id_nodup (p : Reminder → Bool) (store : List Reminder)
    (h : (store.map Reminder.id).Nodup) :
    ((store.filter p).map Reminder.id).Nodup :=
  List.Nodup.sublist (List.Sublist.map Reminder.id (List.filter_sublist store)) h

/-- C4: `RescheduleReminder(id, newScheduledFor)` on an existing reminder sets
exactly `scheduledFor`, `sent = false`, `lastFollowupSent = null`,
`followupCount = 0`, and leaves every other field — in particular
`completed`, `tasks`, `transcript` and `emailDraft` — unchanged, for every
prior state of the reminder. -/
theorem c4_reschedule_frame (t : Int) (r : Reminder) :
    (rescheduleReminder t r).scheduled_for = t
    ∧ (rescheduleReminder t r).sent = false
    ∧ (rescheduleReminder t r).last_followup_sent = none
    ∧ (rescheduleReminder t r).followup_count = some 0
    ∧ (rescheduleReminder t r).completed = r.completed
    ∧ (rescheduleReminder t r).tasks = r.tasks
    ∧ (rescheduleReminder t r).transcript = r.transcript
    ∧ (rescheduleReminder t r).email_draft = r.email_draft
    ∧ (rescheduleReminder t r).id = r.id
    ∧ (rescheduleReminder t r).email = r.email
    ∧ (rescheduleReminder t r).phone_number = r.phone_number
    ∧ (rescheduleReminder t r).notification_methods = r.notification_methods :=
  ⟨rfl, rfl, rfl, rfl, rfl, rfl, rfl, rfl, rfl, rfl, rfl, rfl⟩

/-- C2: the follow-up scan selects a reminder iff `sent = true`,
`completed = false`, `lastFollowupSent` is null or `< now - 24h`, and
`scheduledFor ≤ now - 24h`; with the four boundary instances at 23/25 hours
before `now`. -/
theorem c2_followup_selection :
    (∀ (now : Int) (store : List Reminder) (r : Reminder),
        r ∈ followupSelection now store ↔
          r ∈ store ∧ r.sent = true ∧ r.completed = false ∧
            (r.last_followup_sent = none ∨
              ∃ t, r.last_followup_sent = some t ∧ t < now - followUpDelay) ∧
            r.scheduled_for ≤ now - followUpDelay)
    ∧ followUpDelay = 24 * msPerHour
    ∧ isFollowupEligible 0 (mkFollowupCase 11 (-25 * msPerHour) none) = true
    ∧ isFollowupEligible 0 (mkFollowupCase 12 (-23 * msPerHour) none) = false
    ∧ isFollowupEligible 0 (mkFollowupCase 13 (-25 * msPerHour) (some (-23 * msPerHour))) = false
    ∧ isFollowupEligible 0 (mkFollowupCase 14 (-25 * msPerHour) (some (-25 * msPerHour))) = true := by
  refine ⟨?_, by decide, by decide, by decide, by decide, by decide⟩
  intro now store r
  rw [followupSelection, List.mem_filter]
  cases hl : r.last_followup_sent with
  | none => simp [isFollowupEligible, hl, and_assoc]
  | some t => simp [isFollowupEligible, hl, and_assoc]

/-- C6 counterexample: on the empty input string the code returns the empty
string, while the claimed normalization (strip, prepend 1, prefix plus)
yields a nonempty result, so the claim fails at input `""`. -/
theorem c6_counterexample :
    formatPhone "" = "" ∧ specNormalizePhone "" = "+1"
    ∧ formatPhone "" ≠ specNormalizePhone "" := by
  exact ⟨rfl, rfl, by decide⟩

/-- C6 amended: for every nonempty input string `formatPhone` agrees with the
specified strip/prepend/prefix normalization, and the three concrete
examples of the claim hold. -/
theorem c6_amended_phone_normalization :
    (∀ p : String, p ≠ "" → formatPhone p = specNormalizePhone p)
    ∧ formatPhone "555-123-4567" = "+15551234567"
    ∧ formatPhone "15551234567" = "+15551234567"
    ∧ formatPhone "+15551234567" = "+15551234567" := by
  refine ⟨?_, by decide, by decide, by decide⟩
  intro p hp
  simp [formatPhone, specNormalizePhone, hp]

/-- C6 witness: the amended normalization theorem applied at a concrete
nonempty input. -/
theorem c6_amended_witness :
    formatPhone "555-123-4567" = specNormalizePhone "555-123-4567" :=
  c6_amended_phone_normalization.1 "555-123-4567" (by decide)

/-- C9: a due reminder on which both channel guards are false dispatches no
message on any channel, yet is still marked `sent = true` and reported with
status `sent` and no error. -/
theorem c9_no_channel_still_sent (cfg : Config) (o : Oracle) (r : Reminder)
    (he : ((methodsOf r).contains "email" && truthyStr r.email) = false)
    (hs : ((methodsOf r).contains "sms" && truthyStr r.phone_number
            && cfg.twilioConfigured) = false) :
    attemptDue cfg o r = Except.ok []
    ∧ dueOutcome cfg o r = { id := r.id, status := "sent", error := none }
    ∧ dueLoop cfg o [r] [r]
        = ([markSent r], [{ id := r.id, status := "sent", error := none }]) := by
  have hatt : attemptDue cfg o r = Except.ok [] := by
    simp only [attemptDue, he, hs]
    simp
  refine ⟨hatt, ?_, ?_⟩
  · simp [dueOutcome, hatt]
  · simp [dueLoop, hatt, updateById]

/-- C9 witness: an SMS-only reminder with the Twilio client unconfigured is
marked sent although nothing is dispatched. -/
theorem c9_witness :
    attemptDue cfgNoSms oracleAllOk smsOnlyReminder = Except.ok []
    ∧ dueOutcome cfgNoSms oracleAllOk smsOnlyReminder
        = { id := smsOnlyReminder.id, status := "sent", error := none }
    ∧ dueLoop cfgNoSms oracleAllOk [smsOnlyReminder] [smsOnlyReminder]
        = ([markSent smsOnlyReminder],
           [{ id := smsOnlyReminder.id, status := "sent", error := none }]) :=
  c9_no_channel_still_sent cfgNoSms oracleAllOk smsOnlyReminder (by decide) (by decide)

/-- C3 counterexample: with the email channel unconfigured and the SMS
channel configured, an SMS-only due reminder is NOT processed: the whole
invocation aborts with the configuration error and the reminder keeps
`sent = false`, contradicting the claim that it is still sent. -/
theorem c3_counterexample :
    processDueReminders cfgNoEmail oracleAllOk 0 [smsOnlyReminder]
      = (Response.err "Services not configured", [smsOnlyReminder])
    ∧ smsOnlyReminder.sent = false
    ∧ isDue 0 smsOnlyReminder = true
    ∧ (methodsOf smsOnlyReminder).contains "sms" = true
    ∧ cfgNoEmail.twilioConfigured = true
    ∧ cfgNoEmail.resendConfigured = false := by decide

/-- C3 amended: when the email channel is configured but every email delivery
throws (misconfigured credential), an SMS-only due reminder is sent and
marked `sent = true` while an email-only one fails with the delivery error
and keeps `sent = false`. -/
theorem c3_amended_sms_succeeds_email_fails :
    processDueReminders cfgFull oracleEmailDown 0 [smsOnlyReminder, emailOnlyReminder]
      = (Response.ok 2 [{ id := 1, status := "sent", error := none },
                        { id := 2, status := "failed", error := some "DeliveryFailed" }],
         [markSent smsOnlyReminder, emailOnlyReminder])
    ∧ (markSent smsOnlyReminder).sent = true
    ∧ emailOnlyReminder.sent = false := by decide

/-- C10: the transcribe endpoint takes its mock branch — fixed transcript,
`mock = true`, temp file deleted — exactly when the OpenAI key is unset,
empty, or the literal placeholder; and the health endpoint reports
`whisperAvailable = true` for the placeholder key. -/
theorem c10_transcribe_mock_condition :
    (∀ key : Option String,
        usesMockTranscription key = true ↔
          (key = none ∨ key = some "" ∨ key = some "your-openai-api-key-here"))
    ∧ (∀ (key : Option String) (w : Except String String),
        usesMockTranscription key = true →
          transcribe key w
            = ({ success := true, transcript := mockTranscript, mock := true }, true))
    ∧ whisperAvailable (some "your-openai-api-key-here") = true := by
  refine ⟨?_, ?_, by decide⟩
  · intro key
    cases key with
    | none => simp [usesMockTranscription, truthyStr]
    | some s => simp [usesMockTranscription, truthyStr, placeholderKey]
  · intro key w h
    simp [transcribe, h]

/-- C10 witness: with the placeholder key set, the mock branch is taken even
though a real Whisper result was available. -/
theorem c10_witness :
    transcribe (some placeholderKey) (Except.ok "real transcript")
      = ({ success := true, transcript := mockTranscript, mock := true }, true) :=
  c10_transcribe_mock_condition.2.1 (some placeholderKey) (Except.ok "real transcript")
    (by decide)

/-- C7 counterexample: a run whose only work is one follow-up returns a
result entry with status `followup_sent`, which is neither `sent` nor
`failed`, refuting the claimed status alphabet. -/
theorem c7_counterexample :
    processDueReminders cfgFull oracleAllOk 0 [followupOnlyReminder]
      = (Response.ok 1 [{ id := 3, status := "followup_sent", error := none }],
         [fuUpdate 0 followupOnlyReminder followupOnlyReminder])
    ∧ ({ id := 3, status := "followup_sent", error := none } : RunResult).status ≠ "sent"
    ∧ ({ id := 3, status := "followup_sent", error := none } : RunResult).status ≠ "failed" := by
  decide

/-- C7 amended: a successful run reports `processed = results.length` and
`results` is the due-scan entries (status `sent` or `failed`) followed by the
follow-up entries (status `followup_sent` or `followup_failed`). -/
theorem c7_amended_report_shape (cfg : Config) (o : Oracle) (now : Int)
    (store : List Reminder) (n : Nat) (rs : List RunResult) (store2 : List Reminder)
    (hrun : processDueReminders cfg o now store = (Response.ok n rs, store2)) :
    n = rs.length
    ∧ ∃ d f, rs = d ++ f
        ∧ (∀ e ∈ d, e.status = "sent" ∨ e.status = "failed")
        ∧ (∀ e ∈ f, e.status = "followup_sent" ∨ e.status = "followup_failed") := by
  have hdue : ∀ e ∈ (dueLoop cfg o store (dueSelection now store)).2,
      e.status = "sent" ∨ e.status = "failed" := by
    intro e he
    rw [dueLoop_results] at he
    rcases List.mem_map.mp he with ⟨x, _, rfl⟩
    exact dueOutcome_status cfg o x
  by_cases hg : (cfg.supabaseConfigured && cfg.resendConfigured) = true
  · cases hq : o.dueQueryError with
    | some e => simp [processDueReminders, hg, hq] at hrun
    | none =>
      cases hfq : o.followupQueryError with
      | some e =>
        have hout : processDueReminders cfg o now store
            = (Response.ok (dueLoop cfg o store (dueSelection now store)).2.length
                 (dueLoop cfg o store (dueSelection now store)).2,
               (dueLoop cfg o store (dueSelection now store)).1) := by
          simp [processDueReminders, hg, hq, hfq]
        rw [hout] at hrun
        have h1 := congrArg Prod.fst hrun
        simp only at h1
        injection h1 with hn hrs
        subst hn
        subst hrs
        refine ⟨rfl, (dueLoop cfg o store (dueSelection now store)).2, [], by simp, hdue, by simp⟩
      | none =>
        have hout : processDueReminders cfg o now store
            = (Response.ok
                 ((dueLoop cfg o store (dueSelection now store)).2
                   ++ (followupLoop o now (dueLoop cfg o store (dueSelection now store)).1
                        (followupSelection now (dueLoop cfg o store (dueSelection now store)).1)).2).length
                 ((dueLoop cfg o store (dueSelection now store)).2
                   ++ (followupLoop o now (dueLoop cfg o store (dueSelection now store)).1
                        (followupSelection now (dueLoop cfg o store (dueSelection now store)).1)).2),
               (followupLoop o now (dueLoop cfg o store (dueSelection now store)).1
                  (followupSelection now (dueLoop cfg o store (dueSelection now store)).1)).1) := by
          simp [processDueReminders, hg, hq, hfq]
        rw [hout] at hrun
        have h1 := congrArg Prod.fst hrun
        simp only at h1
        injection h1 with hn hrs
        subst hn
        subst hrs
        refine ⟨rfl, (dueLoop cfg o store (dueSelection now store)).2,
          (followupLoop o now (dueLoop cfg o store (dueSelection now store)).1
            (followupSelection now (dueLoop cfg o store (dueSelection now store)).1)).2,
          rfl, hdue, ?_⟩
        intro e he
        rw [followupLoop_results] at he
        rcases List.mem_map.mp he with ⟨x, _, rfl⟩
        exact fuOutcome_status o x
  · simp [processDueReminders, hg] at hrun

/-- C7 witness: the amended report-shape theorem applied to a concrete
successful run. -/
theorem c7_amended_witness :
    (1 : Nat) = [({ id := 2, status := "sent", error := none } : RunResult)].length
    ∧ ∃ d f, [({ id := 2, status := "sent", error := none } : RunResult)] = d ++ f
        ∧ (∀ e ∈ d, e.status = "sent" ∨ e.status = "failed")
        ∧ (∀ e ∈ f, e.status = "followup_sent" ∨ e.status = "followup_failed") :=
  c7_amended_report_shape cfgFull oracleAllOk 0 [emailOnlyReminder] 1
    [{ id := 2, status := "sent", error := none }] [markSent emailOnlyReminder] (by decide)

/-- C8 counterexample: the follow-up select fails, yet the invocation does
not abort: it reports success and the due-scan state change (marking the
reminder sent) still happened, refuting the all-queries-abort claim. -/
theorem c8_counterexample :
    processDueReminders cfgFull oracleFuQueryDown 0 [emailOnlyReminder]
      = (Response.ok 1 [{ id := 2, status := "sent", error := none }],
         [markSent emailOnlyReminder])
    ∧ oracleFuQueryDown.followupQueryError = some "db unreachable"
    ∧ (markSent emailOnlyReminder).sent = true
    ∧ emailOnlyReminder.sent = false := by decide

/-- C8 amended: a due-scan query failure aborts the whole invocation with
the error and no state change; a follow-up query failure does not abort —
the invocation still reports success and merely skips the follow-up phase,
leaving the follow-up columns of every reminder unchanged. -/
theorem c8_amended_store_errors (cfg : Config) (o : Oracle) (now : Int)
    (store : List Reminder)
    (hsup : cfg.supabaseConfigured = true) (hres : cfg.resendConfigured = true) :
    (∀ e, o.dueQueryError = some e →
       processDueReminders cfg o now store = (Response.err e, store))
    ∧ (∀ e, o.dueQueryError = none → o.followupQueryError = some e →
       (∃ n rs, (processDueReminders cfg o now store).1 = Response.ok n rs)
       ∧ (∀ j, (getById (processDueReminders cfg o now store).2 j).map
                 Reminder.last_followup_sent
             = (getById store j).map Reminder.last_followup_sent)
       ∧ (∀ j, (getById (processDueReminders cfg o now store).2 j).map
                 Reminder.followup_count
             = (getById store j).map Reminder.followup_count)) := by
  constructor
  · intro e he
    simp [processDueReminders, hsup, hres, he]
  · intro e hq hfq
    have hout : processDueReminders cfg o now store
        = (Response.ok (dueLoop cfg o store (dueSelection now store)).2.length
             (dueLoop cfg o store (dueSelection now store)).2,
           (dueLoop cfg o store (dueSelection now store)).1) := by
      simp [processDueReminders, hsup, hres, hq, hfq]
    rw [hout]
    refine ⟨⟨_, _, rfl⟩, ?_, ?_⟩
    · intro j
      exact dueLoop_proj Reminder.last_followup_sent (fun x => rfl) cfg o _ store j
    · intro j
      exact dueLoop_proj Reminder.followup_count (fun x => rfl) cfg o _ store j

/-- C8 witness: the abort branch of the amended theorem applied to a concrete
failing due-scan query. -/
theorem c8_amended_witness :
    processDueReminders cfgFull oracleDueQueryDown 0 [emailOnlyReminder]
      = (Response.err "db unreachable", [emailOnlyReminder]) :=
  (c8_amended_store_errors cfgFull oracleDueQueryDown 0 [emailOnlyReminder] rfl rfl).1
    "db unreachable" rfl

/-- C5: for every follow-up-eligible reminder, a successful follow-up send
sets `lastFollowupSent = now` and increments `followupCount` by exactly one;
a throwing send leaves the record unchanged and is recorded as the failure entry
of that item; and every eligible reminder gets its own result entry regardless of the
outcomes of the others. -/
theorem c5_followup_outcomes (o : Oracle) (now : Int) (store : List Reminder)
    (hnd : (store.map Reminder.id).Nodup)
    (r : Reminder) (hr : r ∈ followupSelection now store) :
    (followupLoop o now store (followupSelection now store)).2
        = (followupSelection now store).map (fuOutcome o)
    ∧ (∀ u, o.followupEmailSend r = Except.ok u →
        fuOutcome o r = { id := r.id, status := "followup_sent", error := none }
        ∧ getById (followupLoop o now store (followupSelection now store)).1 r.id
            = some { r with last_followup_sent := some now,
                            followup_count := some (r.followup_count.getD 0 + 1) })
    ∧ (∀ e, o.followupEmailSend r = Except.error e →
        fuOutcome o r = { id := r.id, status := "followup_failed", error := some e }
        ∧ getById (followupLoop o now store (followupSelection now store)).1 r.id
            = some r) := by
  have hselnd : ((followupSelection now store).map Reminder.id).Nodup :=
    selection_map_id_nodup (isFollowupEligible now) store hnd
  have hmemstore : r ∈ store := (List.mem_filter.mp hr).1
  have hget : getById store r.id = some r := mem_nodup_getById store r hmemstore hnd
  have hmem := getById_followupLoop_mem o now (followupSelection now store) store r hr hselnd
  refine ⟨followupLoop_results o now _ store, ?_, ?_⟩
  · intro u hu
    rw [hu] at hmem
    simp only [hget, Option.map_some'] at hmem
    exact ⟨by simp [fuOutcome, hu], hmem⟩
  · intro e he
    rw [he] at hmem
    rw [hget] at hmem
    exact ⟨by simp [fuOutcome, he], hmem⟩

/-- C5 witness: the success branch of the follow-up outcome theorem at a
concrete eligible reminder. -/
theorem c5_witness :
    fuOutcome oracleAllOk followupOnlyReminder
      = { id := followupOnlyReminder.id, status := "followup_sent", error := none }
    ∧ getById (followupLoop oracleAllOk 0 [followupOnlyReminder]
          (followupSelection 0 [followupOnlyReminder])).1 followupOnlyReminder.id
        = some { followupOnlyReminder with
                 last_followup_sent := some 0,
                 followup_count := some (followupOnlyReminder.followup_count.getD 0 + 1) } :=
  (c5_followup_outcomes oracleAllOk 0 [followupOnlyReminder] (by decide)
      followupOnlyReminder (by decide)).2.1 () rfl

/-- C1: every reminder selected by the due-scan gets exactly one due-scan
result entry; a non-throwing attempt yields the `sent` entry and the record
ends the run with `sent = true`; a throwing attempt yields the `failed`
entry with the error and leaves the record fully unchanged (so it stays
selectable); and an error on one reminder does not stop the rest — the due
entries of the whole selection head the result list. -/
theorem c1_due_scan_outcomes (cfg : Config) (o : Oracle) (now : Int)
    (store : List Reminder)
    (hsup : cfg.supabaseConfigured = true) (hres : cfg.resendConfigured = true)
    (hq : o.dueQueryError = none)
    (hnd : (store.map Reminder.id).Nodup)
    (r : Reminder) (hr : r ∈ dueSelection now store)
    (n : Nat) (rs : List RunResult) (store2 : List Reminder)
    (hrun : processDueReminders cfg o now store = (Response.ok n rs, store2)) :
    (∃ extra, rs = (dueSelection now store).map (dueOutcome cfg o) ++ extra)
    ∧ rs.filter (dueStatusFilter r.id) = [dueOutcome cfg o r]
    ∧ (∀ evs, attemptDue cfg o r = Except.ok evs →
        dueOutcome cfg o r = { id := r.id, status := "sent", error := none }
        ∧ ∃ r2, getById store2 r.id = some r2 ∧ r2.sent = true)
    ∧ (∀ e, attemptDue cfg o r = Except.error e →
        dueOutcome cfg o r = { id := r.id, status := "failed", error := some e }
        ∧ getById store2 r.id = some r) := by
  have hguard : (cfg.supabaseConfigured && cfg.resendConfigured) = true := by
    rw [hsup, hres]
    rfl
  have hselnd : ((dueSelection now store).map Reminder.id).Nodup :=
    selection_map_id_nodup (isDue now) store hnd
  have hmemstore : r ∈ store := (List.mem_filter.mp hr).1
  have hduer : isDue now r = true := (List.mem_filter.mp hr).2
  have hsent : r.sent = false := by
    simp [isDue] at hduer
    exact hduer.1
  have hget : getById store r.id = some r := mem_nodup_getById store r hmemstore hnd
  have hmem := getById_dueLoop_mem cfg o (dueSelection now store) store r hr hselnd
  have hd1nd : (((dueLoop cfg o store (dueSelection now store)).1).map Reminder.id).Nodup := by
    rw [dueLoop_map_id]
    exact hnd
  cases hfq : o.followupQueryError with
  | some e0 =>
    have hout : processDueReminders cfg o now store
        = (Response.ok (dueLoop cfg o store (dueSelection now store)).2.length
             (dueLoop cfg o store (dueSelection now store)).2,
           (dueLoop cfg o store (dueSelection now store)).1) := by
      simp [processDueReminders, hguard, hq, hfq]
    rw [hout] at hrun
    have h1 := congrArg Prod.fst hrun
    have h2 := congrArg Prod.snd hrun
    simp only at h1 h2
    injection h1 with hn hrs
    subst hrs
    subst h2
    refine ⟨⟨[], by rw [dueLoop_results, List.append_nil]⟩, ?_, ?_, ?_⟩
    · rw [dueLoop_results]
      exact filter_due_map_singleton cfg o _ r hr hselnd
    · intro evs hatt
      rw [hatt] at hmem
      simp only [hget, Option.map_some'] at hmem
      exact ⟨by simp [dueOutcome, hatt], markSent r, hmem, rfl⟩
    · intro e hatt
      rw [hatt] at hmem
      rw [hget] at hmem
      exact ⟨by simp [dueOutcome, hatt], hmem⟩
  | none =>
    have hout : processDueReminders cfg o now store
        = (Response.ok
             ((dueLoop cfg o store (dueSelection now store)).2
               ++ (followupLoop o now (dueLoop cfg o store (dueSelection now store)).1
                    (followupSelection now (dueLoop cfg o store (dueSelection now store)).1)).2).length
             ((dueLoop cfg o store (dueSelection now store)).2
               ++ (followupLoop o now (dueLoop cfg o store (dueSelection now store)).1
                    (followupSelection now (dueLoop cfg o store (dueSelection now store)).1)).2),
           (followupLoop o now (dueLoop cfg o store (dueSelection now store)).1
              (followupSelection now (dueLoop cfg o store (dueSelection now store)).1)).1) := by
      simp [processDueReminders, hguard, hq, hfq]
    rw [hout] at hrun
    have h1 := congrArg Prod.fst hrun
    have h2 := congrArg Prod.snd hrun
    simp only at h1 h2
    injection h1 with hn hrs
    subst hrs
    subst h2
    refine ⟨⟨(followupLoop o now (dueLoop cfg o store (dueSelection now store)).1
        (followupSelection now (dueLoop cfg o store (dueSelection now store)).1)).2,
        by rw [dueLoop_results]⟩, ?_, ?_, ?_⟩
    · rw [List.filter_append, dueLoop_results, followupLoop_results,
        filter_due_map_singleton cfg o _ r hr hselnd, filter_fu_map, List.append_nil]
    · intro evs hatt
      rw [hatt] at hmem
      simp only [hget, Option.map_some'] at hmem
      have hpres := followupLoop_proj Reminder.sent o now (fun a x => rfl)
        (followupSelection now (dueLoop cfg o store (dueSelection now store)).1)
        (dueLoop cfg o store (dueSelection now store)).1 r.id
      rw [hmem] at hpres
      cases hgb : getById (followupLoop o now (dueLoop cfg o store (dueSelection now store)).1
          (followupSelection now (dueLoop cfg o store (dueSelection now store)).1)).1 r.id with
      | none =>
        rw [hgb] at hpres
        simp at hpres
      | some r2 =>
        rw [hgb] at hpres
        simp only [Option.map_some'] at hpres
        exact ⟨by simp [dueOutcome, hatt], r2, rfl, Option.some.inj hpres⟩
    · intro e hatt
      rw [hatt] at hmem
      rw [hget] at hmem
      have hnein : ∀ x ∈ followupSelection now (dueLoop cfg o store (dueSelection now store)).1,
          x.id ≠ r.id := by
        intro x hx hxe
        have hx1 : x ∈ (dueLoop cfg o store (dueSelection now store)).1 :=
          (List.mem_filter.mp hx).1
        have hel : isFollowupEligible now x = true := (List.mem_filter.mp hx).2
        have hgx : getById (dueLoop cfg o store (dueSelection now store)).1 x.id = some x :=
          mem_nodup_getById _ x hx1 hd1nd
        rw [hxe, hmem] at hgx
        have hxr : x = r := (Option.some.inj hgx).symm
        rw [hxr] at hel
        simp [isFollowupEligible, hsent] at hel
      have hskip := getById_followupLoop_ne o now
        (followupSelection now (dueLoop cfg o store (dueSelection now store)).1)
        (dueLoop cfg o store (dueSelection now store)).1 r.id hnein
      rw [hskip, hmem]
      exact ⟨by simp [dueOutcome, hatt], rfl⟩

/-- C1 witness: the success branch of the due-scan outcome theorem at a
concrete due reminder. -/
theorem c1_witness :
    dueOutcome cfgFull oracleAllOk emailOnlyReminder
      = { id := emailOnlyReminder.id, status := "sent", error := none }
    ∧ ∃ r2, getById [markSent emailOnlyReminder] emailOnlyReminder.id = some r2
        ∧ r2.sent = true :=
  (c1_due_scan_outcomes cfgFull oracleAllOk 0 [emailOnlyReminder] rfl rfl rfl (by decide)
      emailOnlyReminder (by decide) 1 [{ id := 2, status := "sent", error := none }]
      [markSent emailOnlyReminder] (by decide)).2.2.1
    [Dispatch.email "user@example.com"] rfl


end TaskWhisper
